import Mathlib

/-!
Verification of the `usbsolver` USB mining driver.

The development shallowly embeds the Rust sources:
  * `src/src/usb_solver.rs` — `UsbSolver::difficulty_to_target_u32` and
    `UsbSolver::solve` (the solver poll loop);
  * `src/usbderive/src/derive.rs` — `UsbDerive::detect` and
    `UsbDerive::get_state`.

Machine integers are modelled as `Nat` (the only wrapping-sensitive value is
the 256-bit difficulty, handled with explicit bounds).  Serial I/O is
modelled by passing the device's response stream explicitly; a Rust `?`
failure or panic is an `Except.error`.
-/

/-- Big-endian serialization of a 256-bit unsigned value into 32 bytes,
modelling `U256::to_big_endian` from the `primitive-types`/`uint` crate used
by `starcoin_types::U256`: byte `i` holds bits `8*(31-i) .. 8*(32-i)`. -/
def to_big_endian (x : Nat) : List Nat :=
  [x / 2 ^ 248 % 256, x / 2 ^ 240 % 256, x / 2 ^ 232 % 256, x / 2 ^ 224 % 256,
   x / 2 ^ 216 % 256, x / 2 ^ 208 % 256, x / 2 ^ 200 % 256, x / 2 ^ 192 % 256,
   x / 2 ^ 184 % 256, x / 2 ^ 176 % 256, x / 2 ^ 168 % 256, x / 2 ^ 160 % 256,
   x / 2 ^ 152 % 256, x / 2 ^ 144 % 256, x / 2 ^ 136 % 256, x / 2 ^ 128 % 256,
   x / 2 ^ 120 % 256, x / 2 ^ 112 % 256, x / 2 ^ 104 % 256, x / 2 ^ 96 % 256,
   x / 2 ^ 88 % 256, x / 2 ^ 80 % 256, x / 2 ^ 72 % 256, x / 2 ^ 64 % 256,
   x / 2 ^ 56 % 256, x / 2 ^ 48 % 256, x / 2 ^ 40 % 256, x / 2 ^ 32 % 256,
   x / 2 ^ 24 % 256, x / 2 ^ 16 % 256, x / 2 ^ 8 % 256, x % 256]

/-- `Cursor::read_u32::<BigEndian>()` on a byte buffer: the first four bytes
assembled most-significant first.  On a buffer shorter than 4 bytes the Rust
call errors; `usb_solver.rs` unwraps on a 32-byte buffer, so that branch is
unreachable there and is given the dummy value 0. -/
def readU32BE : List Nat → Nat
  | b0 :: b1 :: b2 :: b3 :: _ => ((b0 * 256 + b1) * 256 + b2) * 256 + b3
  | _ => 0

/-- `U256::max_value()`, the largest 256-bit unsigned integer. -/
def U256_max : Nat := 2 ^ 256 - 1

/-- `UsbSolver::difficulty_to_target_u32` (usb_solver.rs lines 50-56):
divide the all-ones 256-bit value by the difficulty, serialize the quotient
big-endian, and read the first four bytes as a big-endian `u32`. -/
def difficulty_to_target_u32 (difficulty : Nat) : Nat :=
  readU32BE (to_big_endian (U256_max / difficulty))

lemma readU32BE_to_big_endian (x : Nat) (hx : x < 2 ^ 256) :
    readU32BE (to_big_endian x) = x / 2 ^ 224 := by
  have h1 : readU32BE (to_big_endian x) =
      ((x / 2 ^ 248 % 256 * 256 + x / 2 ^ 240 % 256) * 256 + x / 2 ^ 232 % 256) * 256
        + x / 2 ^ 224 % 256 := rfl
  have e1 : x / 2 ^ 248 = x / 2 ^ 224 / 2 ^ 24 := by
    rw [Nat.div_div_eq_div_mul]; norm_num
  have e2 : x / 2 ^ 240 = x / 2 ^ 224 / 2 ^ 16 := by
    rw [Nat.div_div_eq_div_mul]; norm_num
  have e3 : x / 2 ^ 232 = x / 2 ^ 224 / 2 ^ 8 := by
    rw [Nat.div_div_eq_div_mul]; norm_num
  have hq : x / 2 ^ 224 < 2 ^ 32 := by
    apply Nat.div_lt_of_lt_mul
    calc x < 2 ^ 256 := hx
    _ = 2 ^ 224 * 2 ^ 32 := by norm_num
  rw [h1, e1, e2, e3]
  have h24 : (2 : Nat) ^ 24 = 16777216 := by norm_num
  have h16 : (2 : Nat) ^ 16 = 65536 := by norm_num
  have h8 : (2 : Nat) ^ 8 = 256 := by norm_num
  have h32 : (2 : Nat) ^ 32 = 4294967296 := by norm_num
  rw [h24, h16, h8] at *
  omega

lemma difficulty_to_target_u32_eq (d : Nat) :
    difficulty_to_target_u32 d = (2 ^ 256 - 1) / d / 2 ^ 224 := by
  have h : U256_max / d < 2 ^ 256 :=
    lt_of_le_of_lt (Nat.div_le_self _ _) (by norm_num [U256_max])
  simpa [difficulty_to_target_u32, U256_max] using
    readU32BE_to_big_endian (U256_max / d) h

/-- C1: for every nonzero 256-bit difficulty `d`, `difficulty_to_target_u32 d`
equals the most significant 32 bits, in big-endian order, of the 256-bit
big-endian serialization of `⌊max_256bit / d⌋` — arithmetically, the top 4
bytes of the 32-byte big-endian encoding of a value `v < 2^256` read as a
big-endian `u32` are exactly `⌊v / 2^224⌋`. -/
theorem difficulty_to_target_u32_spec (d : Nat) (h0 : 0 < d) (h1 : d < 2 ^ 256) :
    difficulty_to_target_u32 d = (2 ^ 256 - 1) / d / 2 ^ 224 :=
  difficulty_to_target_u32_eq d

/-- Witness for C1 at the concrete difficulty 7. -/
theorem difficulty_to_target_u32_spec_witness :
    0 < 7 ∧ 7 < 2 ^ 256 ∧
      difficulty_to_target_u32 7 = (2 ^ 256 - 1) / 7 / 2 ^ 224 :=
  ⟨by norm_num, by norm_num, difficulty_to_target_u32_spec 7 (by norm_num) (by norm_num)⟩

/-- C2 counterexample: at difficulty `2^250` the code returns 0, not
`0x00000040`: the quotient `(2^256-1)/2^250 = 63` fits in one byte, so the
four most significant bytes of its big-endian encoding are all zero. -/
theorem target_u32_at_2pow250_ne_0x40 :
    difficulty_to_target_u32 (2 ^ 250) ≠ 0x00000040 := by decide

/-- C2 amended: for `D = 2^250` the top 4 bytes of the big-endian encoding of
`max_256bit / D`, i.e. the value returned by `difficulty_to_target_u32`,
equal `0x00000000`. -/
theorem target_u32_at_2pow250_eq_zero :
    difficulty_to_target_u32 (2 ^ 250) = 0 := by decide

/-- C3: `difficulty_to_target_u32` is monotonically non-increasing — for
nonzero 256-bit difficulties `d1 ≤ d2` the target at `d2` is at most the
target at `d1`. -/
theorem difficulty_to_target_u32_antitone (d1 d2 : Nat) (h0 : 0 < d1)
    (h12 : d1 ≤ d2) (h2 : d2 < 2 ^ 256) :
    difficulty_to_target_u32 d2 ≤ difficulty_to_target_u32 d1 := by
  rw [difficulty_to_target_u32_eq, difficulty_to_target_u32_eq]
  exact Nat.div_le_div_right (Nat.div_le_div_left h12 h0)

/-- Witness for C3 at the concrete pair (2, 5). -/
theorem difficulty_to_target_u32_antitone_witness :
    0 < 2 ∧ 2 ≤ 5 ∧ 5 < 2 ^ 256 ∧
      difficulty_to_target_u32 5 ≤ difficulty_to_target_u32 2 :=
  ⟨by norm_num, by norm_num, by norm_num,
    difficulty_to_target_u32_antitone 2 5 (by norm_num) (by norm_num) (by norm_num)⟩

/-- Modelled from the spec: the `proto` module of the `usbderive` crate is
not among the given sources; per spec §2/§4.2 an inbound frame decodes to a
device-state report, a solved-job notification, or an unrecognized frame.
`goodcores` is the one telemetry field the given sources consume
(`derive.rs` line 122). -/
structure DeviceState where
  goodcores : Nat
deriving DecidableEq, Repr

/-- Modelled from the spec: a solved-job notification carries the job id,
the accepted 32-bit nonce and the resulting hash bytes (spec §3, §6). -/
structure Seal where
  job_id : Nat
  nonce : Nat
  hash : List Nat
deriving DecidableEq, Repr

/-- Modelled from the spec: the inbound response type `DeriveResponse` of
the missing `proto` module (spec §3 `DeviceResponse`). -/
inductive DeriveResponse where
  | State (s : DeviceState)
  | SolvedJob (sl : Seal)
  | Other (raw : List Nat)
deriving DecidableEq, Repr

/-- Modelled from the spec: the outbound message constructors of the missing
`proto` module (spec §3 `Message`). -/
inductive OutMessage where
  | QueryState
  | SetHwParams (freq voltage : Nat)
  | WriteJob (job_id : Nat) (target : Nat) (data : List Nat)
  | SetOpcode
  | Reboot
deriving DecidableEq, Repr

/-- `serialport::UsbPortInfo`, restricted to the fields `detect` reads. -/
structure UsbPortInfo where
  vid : Nat
  pid : Nat
deriving DecidableEq, Repr

/-- `serialport::SerialPortType`: a USB port with its descriptor, or any of
the non-USB variants (PCI, Bluetooth, unknown), which `detect` treats
alike. -/
inductive SerialPortType where
  | UsbPort (u : UsbPortInfo)
  | NonUsb
deriving DecidableEq, Repr

/-- `serialport::SerialPortInfo`: a port name plus its type. -/
structure SerialPortInfo where
  port_name : String
  port_type : SerialPortType
deriving DecidableEq, Repr

/-- The `for port in ports` loop of `UsbDerive::detect` (derive.rs lines
52-58): keep a port iff it is a USB port whose vendor and product ids match,
preserving enumeration order. -/
def detect_loop : List SerialPortInfo → Nat → Nat → List SerialPortInfo
  | [], _, _ => []
  | port :: rest, vid, pid =>
    match port.port_type with
    | SerialPortType.UsbPort u =>
      if u.vid = vid ∧ u.pid = pid then port :: detect_loop rest vid pid
      else detect_loop rest vid pid
    | SerialPortType.NonUsb => detect_loop rest vid pid

/-- `UsbDerive::detect` (derive.rs lines 49-60).  The outcome of
`serialport::available_ports()` is passed in explicitly: its error is
propagated by `?`, and on success the filter loop runs and the function
returns `Ok`. -/
def detect (avail : Except Unit (List SerialPortInfo)) (vid pid : Nat) :
    Except Unit (List SerialPortInfo) :=
  match avail with
  | Except.error e => Except.error e
  | Except.ok ports => Except.ok (detect_loop ports vid pid)

/-- Spec-side predicate for C5: a port whose type is USB with the requested
vendor/product id pair. -/
def vid_pid_matches (vid pid : Nat) (p : SerialPortInfo) : Bool :=
  match p.port_type with
  | SerialPortType.UsbPort u => u.vid == vid && u.pid == pid
  | SerialPortType.NonUsb => false

/-- `UsbDerive::get_state` (derive.rs lines 80-90), with the device's
response stream made explicit: the handle writes one `QueryState` message,
consumes exactly one element of the stream (a decoded response, or a read
error), and yields the state iff that response is a `State` frame.  Result:
(messages written, call result, remaining stream). -/
def get_state (stream : List (Except Unit DeriveResponse)) :
    List OutMessage × Except Unit DeviceState × List (Except Unit DeriveResponse) :=
  match stream with
  | [] => ([OutMessage.QueryState], Except.error (), [])
  | r :: rest =>
    match r with
    | Except.error e => ([OutMessage.QueryState], Except.error e, rest)
    | Except.ok (DeriveResponse.State s) => ([OutMessage.QueryState], Except.ok s, rest)
    | Except.ok _ => ([OutMessage.QueryState], Except.error (), rest)

/-- `starcoin_types::block::BlockHeaderExtra`: a fixed 4-byte field. -/
structure BlockHeaderExtra where
  b0 : Nat
  b1 : Nat
  b2 : Nat
  b3 : Nat
deriving DecidableEq, Repr

/-- `BlockHeaderExtra::as_slice`: the four bytes in order. -/
def BlockHeaderExtra.as_slice (e : BlockHeaderExtra) : List Nat :=
  [e.b0, e.b1, e.b2, e.b3]

/-- `starcoin_types::system_events::MintEventExtra`, restricted to the one
field `solve` reads. -/
structure MintEventExtra where
  extra : BlockHeaderExtra
deriving DecidableEq, Repr

/-- `starcoin_types::system_events::MintBlockEvent`, restricted to the
fields `solve` reads: the 256-bit difficulty, the minting payload bytes and
the optional extra-nonce record. -/
structure MintBlockEvent where
  difficulty : Nat
  minting_blob : List Nat
  extra : Option MintEventExtra
deriving DecidableEq, Repr

/-- The `match &event.extra` of usb_solver.rs lines 71-74: the 4 bytes to
splice — `BlockHeaderExtra::new([0u8; 4])` when absent, the caller's extra
field when present. -/
def extra_bytes (e : Option MintEventExtra) : List Nat :=
  match e with
  | none => (BlockHeaderExtra.mk 0 0 0 0).as_slice
  | some x => x.extra.as_slice

/-- One hex digit of `hex::encode` (lowercase). -/
def hexDigit (n : Nat) : Char :=
  if n < 10 then Char.ofNat (48 + n) else Char.ofNat (87 + n)

/-- `hex::encode`: each byte becomes two lowercase hex characters, high
nibble first. -/
def hexEncode (bytes : List Nat) : String :=
  ⟨bytes.foldr (fun b acc => hexDigit (b / 16) :: hexDigit (b % 16) :: acc) []⟩

/-- `starcoin_types::system_events::SealEvent`, as constructed at
usb_solver.rs lines 92-97. -/
structure SealEvent where
  minting_blob : List Nat
  nonce : Nat
  extra : Option MintEventExtra
  hash_result : String
deriving DecidableEq, Repr

/-- One recorded `UsbDerive::set_job(job_id, target, data)` call. -/
structure SetJobCall where
  job_id : Nat
  target : Nat
  data : List Nat
deriving DecidableEq, Repr

/-- The environment of one poll-loop iteration of `solve`: whether
`stop_rx.try_next().is_ok()` holds at the top of the iteration, the outcome
of the blocking `self.derive.read()`, and whether the `set_job` re-submission
would succeed if this iteration reaches it. -/
structure PollStep where
  stop : Bool
  read : Except Unit DeriveResponse
  resubmit_ok : Bool
deriving Repr

/-- How a run of the `solve` poll loop ended: `solved` (break after emitting
a seal), `cancelled` (break on the stop signal), `fatal` (return after a
failed `set_job`), or `running` (the supplied iteration script was exhausted
with the loop still going). -/
inductive SolveOutcome where
  | solved
  | cancelled
  | fatal
  | running
deriving DecidableEq, Repr

/-- Observable effects of a run of the `solve` poll loop: `SealEvent`s sent
on `nonce_tx`, `set_job` calls attempted, `write_state` calls made, number
of `self.derive.read()` calls performed, and how the run ended. -/
structure LoopOut where
  sends : List SealEvent
  jobCalls : List SetJobCall
  writeStates : Nat
  reads : Nat
  outcome : SolveOutcome
deriving DecidableEq, Repr

/-- The `SealEvent` built at usb_solver.rs lines 92-97: the ORIGINAL
`event.minting_blob` (not the spliced copy), the device's nonce, the event's
extra record, and the hex-encoded hash. -/
def mkSealEvent (ev : MintBlockEvent) (sl : Seal) : SealEvent :=
  { minting_blob := ev.minting_blob
    nonce := sl.nonce
    extra := ev.extra
    hash_result := hexEncode sl.hash }

/-- The `loop` of `UsbSolver::solve` (usb_solver.rs lines 82-116), driven by
an explicit iteration script.  Each iteration: check the stop signal
(non-blocking) and break if set; otherwise perform one blocking read.  A
`SolvedJob` response sends one `SealEvent` and breaks; any other response
`continue`s; a read error falls through to one `write_state` plus a
re-submission of the same job (same id, target, spliced payload), returning
if the re-submission fails. -/
def solve_loop (jid t : Nat) (blob : List Nat) (ev : MintBlockEvent) :
    List PollStep → LoopOut
  | [] => ⟨[], [], 0, 0, SolveOutcome.running⟩
  | step :: rest =>
    if step.stop then ⟨[], [], 0, 0, SolveOutcome.cancelled⟩
    else
      match step.read with
      | Except.ok (DeriveResponse.SolvedJob sl) =>
        ⟨[mkSealEvent ev sl], [], 0, 1, SolveOutcome.solved⟩
      | Except.ok _ =>
        let r := solve_loop jid t blob ev rest
        ⟨r.sends, r.jobCalls, r.writeStates, r.reads + 1, r.outcome⟩
      | Except.error _ =>
        if step.resubmit_ok then
          let r := solve_loop jid t blob ev rest
          ⟨r.sends, ⟨jid, t, blob⟩ :: r.jobCalls, r.writeStates + 1, r.reads + 1,
            r.outcome⟩
        else ⟨[], [⟨jid, t, blob⟩], 1, 1, SolveOutcome.fatal⟩

/-- The extra-nonce splice of usb_solver.rs line 75 for a payload long
enough to slice: bytes 35..39 replaced by the 4 extra bytes. -/
def spliced (ev : MintBlockEvent) : List Nat :=
  ev.minting_blob.take 35 ++ extra_bytes ev.extra ++ ev.minting_blob.drop 39

/-- The payload preparation of usb_solver.rs lines 70-75:
`blob[35..39].borrow_mut().write_all(extra.as_slice())`.  The Rust range
indexing `blob[35..39]` panics when the payload is shorter than 39 bytes
(modelled as `Except.error`); otherwise the 4-byte write fills the whole
slice and its `Ok` result is discarded. -/
def spliced_blob (ev : MintBlockEvent) : Except Unit (List Nat) :=
  if 39 ≤ ev.minting_blob.length then Except.ok (spliced ev) else Except.error ()

/-- `UsbSolver::solve` (usb_solver.rs lines 60-117): compute the 32-bit
target, splice the extra nonce into a copy of the payload (a panic for short
payloads, before any device I/O), submit the job once (`init_ok` says
whether that initial `set_job` succeeds — on failure the function returns
with no sends and no reads), then run the poll loop on the iteration
script.  `jid` is the randomly drawn job id. -/
def solve (ev : MintBlockEvent) (jid : Nat) (init_ok : Bool)
    (steps : List PollStep) : Except Unit LoopOut :=
  let t := difficulty_to_target_u32 ev.difficulty
  match spliced_blob ev with
  | Except.error e => Except.error e
  | Except.ok blob =>
    if init_ok then
      let r := solve_loop jid t blob ev steps
      Except.ok ⟨r.sends, ⟨jid, t, blob⟩ :: r.jobCalls, r.writeStates, r.reads,
        r.outcome⟩
    else Except.ok ⟨[], [⟨jid, t, blob⟩], 0, 0, SolveOutcome.fatal⟩

lemma extra_bytes_length (e : Option MintEventExtra) : (extra_bytes e).length = 4 := by
  cases e <;> simp [extra_bytes, BlockHeaderExtra.as_slice]

lemma spliced_length (ev : MintBlockEvent) (h : 39 ≤ ev.minting_blob.length) :
    (spliced ev).length = ev.minting_blob.length := by
  simp [spliced, extra_bytes_length]
  omega

lemma spliced_getElem_lt35 (ev : MintBlockEvent) (i : Nat) (hi : i < 35)
    (h : 39 ≤ ev.minting_blob.length) :
    (spliced ev)[i]? = ev.minting_blob[i]? := by
  have h35 : (ev.minting_blob.take 35).length = 35 := by
    simp; omega
  rw [spliced, List.append_assoc, List.getElem?_append_left (by rw [h35]; exact hi),
    List.getElem?_take_of_lt hi]

lemma spliced_getElem_mid (ev : MintBlockEvent) (j : Nat) (hj : j < 4)
    (h : 39 ≤ ev.minting_blob.length) :
    (spliced ev)[35 + j]? = (extra_bytes ev.extra)[j]? := by
  have h35 : (ev.minting_blob.take 35).length = 35 := by
    simp; omega
  rw [spliced, List.append_assoc, List.getElem?_append_right (by rw [h35]; omega),
    h35, List.getElem?_append_left (by rw [extra_bytes_length]; omega)]
  congr 1
  omega

lemma spliced_getElem_ge39 (ev : MintBlockEvent) (i : Nat) (hi : 39 ≤ i)
    (h : 39 ≤ ev.minting_blob.length) :
    (spliced ev)[i]? = ev.minting_blob[i]? := by
  have h35 : (ev.minting_blob.take 35).length = 35 := by
    simp; omega
  have hfront : (ev.minting_blob.take 35 ++ extra_bytes ev.extra).length = 39 := by
    simp [h35, extra_bytes_length]
  rw [spliced, List.getElem?_append_right (by rw [hfront]; exact hi), hfront,
    List.getElem?_drop]
  congr 1
  omega

lemma solve_loop_calls (jid t : Nat) (blob : List Nat) (ev : MintBlockEvent) :
    ∀ steps, ∀ c ∈ (solve_loop jid t blob ev steps).jobCalls, c = ⟨jid, t, blob⟩ := by
  intro steps
  induction steps with
  | nil => intro c hc; simp [solve_loop] at hc
  | cons step rest ih =>
    intro c hc
    cases hs : step.stop with
    | true => simp [solve_loop, hs] at hc
    | false =>
      cases hr : step.read with
      | ok r =>
        cases r with
        | State s =>
          simp only [solve_loop, hs, hr, Bool.false_eq_true, if_false] at hc
          exact ih c hc
        | SolvedJob sl =>
          simp [solve_loop, hs, hr] at hc
        | Other raw =>
          simp only [solve_loop, hs, hr, Bool.false_eq_true, if_false] at hc
          exact ih c hc
      | error e =>
        cases hk : step.resubmit_ok with
        | true =>
          simp only [solve_loop, hs, hr, hk, Bool.false_eq_true, if_false,
            if_true, List.mem_cons] at hc
          rcases hc with hc | hc
          · exact hc
          · exact ih c hc
        | false =>
          simp only [solve_loop, hs, hr, hk, Bool.false_eq_true, if_false,
            List.mem_singleton] at hc
          exact hc

/-- C4: for every minting payload of length at least 39, every payload that
`solve` submits via `set_job` (the initial submission and every
re-submission) is the input payload with bytes 35..39 replaced by the
caller's 4-byte extra field — four zero bytes when the extra field is absent,
as `extra_bytes` states — and every byte outside that range unchanged. -/
theorem solve_submits_spliced_blob (ev : MintBlockEvent) (jid : Nat)
    (steps : List PollStep) (h : 39 ≤ ev.minting_blob.length) :
    ∃ out, solve ev jid true steps = Except.ok out ∧
      out.jobCalls ≠ [] ∧
      ∀ c ∈ out.jobCalls,
        c.data.length = ev.minting_blob.length ∧
        (∀ i, i < 35 → c.data[i]? = ev.minting_blob[i]?) ∧
        (∀ j, j < 4 → c.data[35 + j]? = (extra_bytes ev.extra)[j]?) ∧
        (∀ i, 39 ≤ i → c.data[i]? = ev.minting_blob[i]?) := by
  have hsp : spliced_blob ev = Except.ok (spliced ev) := by
    simp [spliced_blob, h]
  refine ⟨_, by simp only [solve, hsp]; rfl, by simp, ?_⟩
  intro c hc
  have hcall : c = ⟨jid, difficulty_to_target_u32 ev.difficulty, spliced ev⟩ := by
    simp only [solve, hsp] at hc
    simp only [List.mem_cons] at hc
    rcases hc with hc | hc
    · exact hc
    · exact solve_loop_calls _ _ _ _ _ c hc
  subst hcall
  exact ⟨spliced_length ev h,
    fun i hi => spliced_getElem_lt35 ev i hi h,
    fun j hj => spliced_getElem_mid ev j hj h,
    fun i hi => spliced_getElem_ge39 ev i hi h⟩

/-- Witness for C4: a 39-byte payload with extra bytes `[0xAA,0xBB,0xCC,0xDD]`. -/
theorem solve_submits_spliced_blob_witness :
    39 ≤ (List.replicate 39 7).length ∧
      ∃ out,
        solve ⟨1, List.replicate 39 7, some ⟨⟨0xAA, 0xBB, 0xCC, 0xDD⟩⟩⟩ 5 true []
            = Except.ok out ∧
        out.jobCalls ≠ [] ∧
        ∀ c ∈ out.jobCalls,
          c.data.length = (List.replicate 39 7 : List Nat).length ∧
          (∀ i, i < 35 → c.data[i]? = (List.replicate 39 7 : List Nat)[i]?) ∧
          (∀ j, j < 4 →
            c.data[35 + j]? = (extra_bytes (some ⟨⟨0xAA, 0xBB, 0xCC, 0xDD⟩⟩))[j]?) ∧
          (∀ i, 39 ≤ i → c.data[i]? = (List.replicate 39 7 : List Nat)[i]?) :=
  ⟨by simp,
    solve_submits_spliced_blob ⟨1, List.replicate 39 7, some ⟨⟨0xAA, 0xBB, 0xCC, 0xDD⟩⟩⟩
      5 [] (by simp)⟩

/-- C10: a minting payload shorter than 39 bytes makes `solve` panic at the
unguarded slice `blob[35..39]` (modelled as `Except.error`), before any job
is submitted to the device; no observable effects are produced. -/
theorem solve_short_blob_slice_error (ev : MintBlockEvent) (jid : Nat)
    (init_ok : Bool) (steps : List PollStep)
    (h : ev.minting_blob.length < 39) :
    solve ev jid init_ok steps = Except.error () := by
  have hsp : spliced_blob ev = Except.error () := by
    simp [spliced_blob]
    omega
  simp [solve, hsp]

/-- Witness for C10 at an 8-byte payload. -/
theorem solve_short_blob_slice_error_witness :
    ([0, 1, 2, 3, 4, 5, 6, 7] : List Nat).length < 39 ∧
      solve ⟨1, [0, 1, 2, 3, 4, 5, 6, 7], none⟩ 5 true [] = Except.error () :=
  ⟨by simp, solve_short_blob_slice_error ⟨1, [0, 1, 2, 3, 4, 5, 6, 7], none⟩ 5 true []
    (by simp)⟩

lemma detect_loop_eq_filter (vid pid : Nat) :
    ∀ ports, detect_loop ports vid pid = ports.filter (vid_pid_matches vid pid) := by
  intro ports
  induction ports with
  | nil => rfl
  | cons p rest ih =>
    cases hp : p.port_type with
    | UsbPort u =>
      by_cases hm : u.vid = vid ∧ u.pid = pid
      · simp [detect_loop, hp, hm, List.filter_cons, vid_pid_matches, hm.1, hm.2, ih]
      · have hb : vid_pid_matches vid pid p = false := by
          simp [vid_pid_matches, hp]
          intro h1
          rcases Decidable.not_and_iff_or_not.mp hm with h | h
          · exact absurd h1 h
          · intro h2; exact absurd h2 h
        simp [detect_loop, hp, hm, List.filter_cons, hb, ih]
    | NonUsb =>
      have hb : vid_pid_matches vid pid p = false := by
        simp [vid_pid_matches, hp]
      simp [detect_loop, hp, List.filter_cons, hb, ih]

/-- C5: for every available-port list, `detect` succeeds (never an error of
its own) and returns exactly the USB ports whose vendor and product ids
match, in enumeration order (a sublist of the input); no other port appears
in the result, and the empty list yields the empty result. -/
theorem detect_filters_by_vid_pid (avail : List SerialPortInfo) (vid pid : Nat) :
    ∃ l, detect (Except.ok avail) vid pid = Except.ok l ∧
      l = avail.filter (vid_pid_matches vid pid) ∧
      (∀ p ∈ l, p ∈ avail ∧ vid_pid_matches vid pid p = true) ∧
      (∀ p ∈ avail, vid_pid_matches vid pid p = true → p ∈ l) ∧
      l.Sublist avail ∧
      (avail = [] → l = []) := by
  refine ⟨detect_loop avail vid pid, rfl, detect_loop_eq_filter vid pid avail, ?_, ?_, ?_, ?_⟩
  · intro p hp
    rw [detect_loop_eq_filter vid pid avail, List.mem_filter] at hp
    exact hp
  · intro p hp hm
    rw [detect_loop_eq_filter vid pid avail, List.mem_filter]
    exact ⟨hp, hm⟩
  · rw [detect_loop_eq_filter vid pid avail]
    exact List.filter_sublist avail
  · intro h
    subst h
    rfl

/-- C6: `get_state` writes exactly one `QueryState` message, consumes exactly
one response from the stream, returns the parsed state when that response is
a `State` frame, and returns an error (never a state) when it is a
`SolvedJob` frame, an `Other` frame, or a read failure. -/
theorem get_state_single_exchange (r : Except Unit DeriveResponse)
    (rest : List (Except Unit DeriveResponse)) :
    (get_state (r :: rest)).1 = [OutMessage.QueryState] ∧
      (get_state (r :: rest)).2.2 = rest ∧
      (∀ s, r = Except.ok (DeriveResponse.State s) →
        (get_state (r :: rest)).2.1 = Except.ok s) ∧
      (∀ sl, r = Except.ok (DeriveResponse.SolvedJob sl) →
        (get_state (r :: rest)).2.1 = Except.error ()) ∧
      (∀ raw, r = Except.ok (DeriveResponse.Other raw) →
        (get_state (r :: rest)).2.1 = Except.error ()) ∧
      (∀ e, r = Except.error e →
        (get_state (r :: rest)).2.1 = Except.error e) := by
  refine ⟨?_, ?_, ?_, ?_, ?_, ?_⟩
  · cases r with
    | ok v => cases v <;> rfl
    | error e => rfl
  · cases r with
    | ok v => cases v <;> rfl
    | error e => rfl
  · intro s hs; subst hs; rfl
  · intro sl hs; subst hs; rfl
  · intro raw hs; subst hs; rfl
  · intro e hs; subst hs; rfl

/-- The concrete `SolvedJob` response used by the C6 witness. -/
def sampleResp : Except Unit DeriveResponse :=
  Except.ok (DeriveResponse.SolvedJob ⟨1, 2, [3]⟩)

/-- Witness for C6 at a concrete `SolvedJob` response. -/
theorem get_state_single_exchange_witness :
    (get_state [sampleResp]).1 = [OutMessage.QueryState] ∧
    (get_state [sampleResp]).2.2 = [] ∧
    (∀ s, sampleResp = Except.ok (DeriveResponse.State s) →
      (get_state [sampleResp]).2.1 = Except.ok s) ∧
    (∀ sl, sampleResp = Except.ok (DeriveResponse.SolvedJob sl) →
      (get_state [sampleResp]).2.1 = Except.error ()) ∧
    (∀ raw, sampleResp = Except.ok (DeriveResponse.Other raw) →
      (get_state [sampleResp]).2.1 = Except.error ()) ∧
    (∀ e, sampleResp = Except.error e →
      (get_state [sampleResp]).2.1 = Except.error e) :=
  get_state_single_exchange sampleResp []

/-- A poll iteration that neither breaks nor returns: the stop signal is not
set, the read is not a `SolvedJob`, and if the read fails the re-submission
succeeds. -/
def continuing (s : PollStep) : Prop :=
  s.stop = false ∧ (∀ sl, s.read ≠ Except.ok (DeriveResponse.SolvedJob sl)) ∧
    (∀ e, s.read = Except.error e → s.resubmit_ok = true)

/-- Number of iterations of a script whose read fails (each such continuing
iteration performs one re-submission). -/
def errCount (steps : List PollStep) : Nat :=
  steps.countP fun s =>
    match s.read with
    | Except.error _ => true
    | Except.ok _ => false

lemma solve_loop_skip (jid t : Nat) (blob : List Nat) (ev : MintBlockEvent)
    (tail : List PollStep) :
    ∀ pre, (∀ s ∈ pre, continuing s) →
      (solve_loop jid t blob ev (pre ++ tail)).sends
          = (solve_loop jid t blob ev tail).sends ∧
      (solve_loop jid t blob ev (pre ++ tail)).outcome
          = (solve_loop jid t blob ev tail).outcome ∧
      (solve_loop jid t blob ev (pre ++ tail)).reads
          = pre.length + (solve_loop jid t blob ev tail).reads ∧
      (solve_loop jid t blob ev (pre ++ tail)).jobCalls.length
          = errCount pre + (solve_loop jid t blob ev tail).jobCalls.length := by
  intro pre
  induction pre with
  | nil => intro _; simp [errCount]
  | cons s pre ih =>
    intro h
    obtain ⟨h1, h2, h3⟩ := h s (List.mem_cons_self s pre)
    obtain ⟨i1, i2, i3, i4⟩ := ih (fun x hx => h x (List.mem_cons_of_mem s hx))
    cases hr : s.read with
    | ok r =>
      cases r with
      | State st =>
        refine ⟨?_, ?_, ?_, ?_⟩ <;>
          simp [solve_loop, h1, hr, errCount, List.countP_cons, i1, i2, i3, i4] <;>
          omega
      | SolvedJob sl => exact absurd hr (h2 sl)
      | Other raw =>
        refine ⟨?_, ?_, ?_, ?_⟩ <;>
          simp [solve_loop, h1, hr, errCount, List.countP_cons, i1, i2, i3, i4] <;>
          omega
    | error e =>
      have h4 : s.resubmit_ok = true := h3 e hr
      refine ⟨?_, ?_, ?_, ?_⟩ <;>
        simp [solve_loop, h1, hr, h4, errCount, List.countP_cons, i1, i2, i3, i4] <;>
        omega

lemma solve_ok (ev : MintBlockEvent) (jid : Nat) (steps : List PollStep)
    (h39 : 39 ≤ ev.minting_blob.length) :
    solve ev jid true steps =
      Except.ok
        ⟨(solve_loop jid (difficulty_to_target_u32 ev.difficulty) (spliced ev) ev steps).sends,
          ⟨jid, difficulty_to_target_u32 ev.difficulty, spliced ev⟩ ::
            (solve_loop jid (difficulty_to_target_u32 ev.difficulty) (spliced ev) ev
              steps).jobCalls,
          (solve_loop jid (difficulty_to_target_u32 ev.difficulty) (spliced ev) ev
            steps).writeStates,
          (solve_loop jid (difficulty_to_target_u32 ev.difficulty) (spliced ev) ev
            steps).reads,
          (solve_loop jid (difficulty_to_target_u32 ev.difficulty) (spliced ev) ev
            steps).outcome⟩ := by
  have hsp : spliced_blob ev = Except.ok (spliced ev) := by
    simp [spliced_blob, h39]
  simp [solve, hsp]

/-- C7: whenever a `SolvedJob` response is read while polling (after any
number of continuing iterations), `solve` sends exactly one `SealEvent`
carrying the device's nonce, the ORIGINAL event payload (not the spliced
copy), the event's extra field, and the hex encoding of the response's hash
bytes; the loop then terminates having performed no read beyond that
iteration. -/
theorem solve_solvedjob_emits_seal (ev : MintBlockEvent) (jid : Nat)
    (pre rest : List PollStep) (sl : Seal) (b : Bool)
    (h39 : 39 ≤ ev.minting_blob.length)
    (hpre : ∀ s ∈ pre, continuing s) :
    ∃ out,
      solve ev jid true
          (pre ++ (⟨false, Except.ok (DeriveResponse.SolvedJob sl), b⟩ : PollStep) :: rest)
        = Except.ok out ∧
      out.sends = [{ minting_blob := ev.minting_blob, nonce := sl.nonce,
                     extra := ev.extra, hash_result := hexEncode sl.hash }] ∧
      out.reads = pre.length + 1 ∧
      out.outcome = SolveOutcome.solved := by
  obtain ⟨i1, i2, i3, i4⟩ := solve_loop_skip jid (difficulty_to_target_u32 ev.difficulty)
    (spliced ev) ev
    ((⟨false, Except.ok (DeriveResponse.SolvedJob sl), b⟩ : PollStep) :: rest) pre hpre
  have htail : solve_loop jid (difficulty_to_target_u32 ev.difficulty) (spliced ev) ev
      ((⟨false, Except.ok (DeriveResponse.SolvedJob sl), b⟩ : PollStep) :: rest)
      = ⟨[mkSealEvent ev sl], [], 0, 1, SolveOutcome.solved⟩ := by
    simp [solve_loop]
  refine ⟨_, solve_ok ev jid _ h39, ?_, ?_, ?_⟩
  · show (solve_loop jid (difficulty_to_target_u32 ev.difficulty) (spliced ev) ev _).sends = _
    rw [i1, htail]
    simp [mkSealEvent]
  · show (solve_loop jid (difficulty_to_target_u32 ev.difficulty) (spliced ev) ev _).reads = _
    rw [i3, htail]
  · show (solve_loop jid (difficulty_to_target_u32 ev.difficulty) (spliced ev) ev _).outcome = _
    rw [i2, htail]

/-- C9: if the stop signal is observable at the start of a poll iteration
before any `SolvedJob` has been handled (all earlier iterations continuing),
`solve` exits the loop at that non-blocking check — performing no read in
that iteration, whatever its read outcome would have been — and nothing is
ever sent on the result channel. -/
theorem solve_stop_cancels (ev : MintBlockEvent) (jid : Nat)
    (pre rest : List PollStep) (step : PollStep)
    (h39 : 39 ≤ ev.minting_blob.length)
    (hpre : ∀ s ∈ pre, continuing s) (hstop : step.stop = true) :
    ∃ out, solve ev jid true (pre ++ step :: rest) = Except.ok out ∧
      out.sends = [] ∧
      out.reads = pre.length ∧
      out.outcome = SolveOutcome.cancelled := by
  obtain ⟨i1, i2, i3, i4⟩ := solve_loop_skip jid (difficulty_to_target_u32 ev.difficulty)
    (spliced ev) ev (step :: rest) pre hpre
  have htail : solve_loop jid (difficulty_to_target_u32 ev.difficulty) (spliced ev) ev
      (step :: rest) = ⟨[], [], 0, 0, SolveOutcome.cancelled⟩ := by
    simp [solve_loop, hstop]
  refine ⟨_, solve_ok ev jid _ h39, ?_, ?_, ?_⟩
  · show (solve_loop jid (difficulty_to_target_u32 ev.difficulty) (spliced ev) ev _).sends = _
    rw [i1, htail]
  · show (solve_loop jid (difficulty_to_target_u32 ev.difficulty) (spliced ev) ev _).reads = _
    rw [i3, htail]
    simp
  · show (solve_loop jid (difficulty_to_target_u32 ev.difficulty) (spliced ev) ev _).outcome = _
    rw [i2, htail]

/-- C8: whenever a poll-iteration read fails (after any number of continuing
iterations), `solve` re-submits the same job — same job id, same 32-bit
target, same spliced payload, like every `set_job` call of the session — and
continues polling exactly as if the failing iteration had not happened,
except for the one extra read and the one extra re-submission; if that
re-submission itself fails, `solve` terminates with no send on the result
channel. -/
theorem solve_read_error_resubmits (ev : MintBlockEvent) (jid : Nat)
    (pre rest : List PollStep) (e : Unit) (b : Bool)
    (h39 : 39 ≤ ev.minting_blob.length)
    (hpre : ∀ s ∈ pre, continuing s) :
    ∃ out cont,
      solve ev jid true (pre ++ (⟨false, Except.error e, b⟩ : PollStep) :: rest)
          = Except.ok out ∧
      solve ev jid true (pre ++ rest) = Except.ok cont ∧
      (∀ c ∈ out.jobCalls,
        c = ⟨jid, difficulty_to_target_u32 ev.difficulty, spliced ev⟩) ∧
      (b = true → out.sends = cont.sends ∧ out.outcome = cont.outcome ∧
        out.reads = cont.reads + 1 ∧
        out.jobCalls.length = cont.jobCalls.length + 1) ∧
      (b = false → out.sends = [] ∧ out.outcome = SolveOutcome.fatal ∧
        out.jobCalls.length = errCount pre + 2) := by
  obtain ⟨i1, i2, i3, i4⟩ := solve_loop_skip jid (difficulty_to_target_u32 ev.difficulty)
    (spliced ev) ev ((⟨false, Except.error e, b⟩ : PollStep) :: rest) pre hpre
  obtain ⟨j1, j2, j3, j4⟩ := solve_loop_skip jid (difficulty_to_target_u32 ev.difficulty)
    (spliced ev) ev rest pre hpre
  refine ⟨_, _, solve_ok ev jid _ h39, solve_ok ev jid _ h39, ?_, ?_, ?_⟩
  · intro c hc
    simp only [List.mem_cons] at hc
    rcases hc with hc | hc
    · exact hc
    · exact solve_loop_calls _ _ _ _ _ c hc
  · intro hb
    subst hb
    have htail1 : solve_loop jid (difficulty_to_target_u32 ev.difficulty) (spliced ev) ev
        ((⟨false, Except.error e, true⟩ : PollStep) :: rest)
        = ⟨(solve_loop jid (difficulty_to_target_u32 ev.difficulty) (spliced ev) ev
              rest).sends,
           ⟨jid, difficulty_to_target_u32 ev.difficulty, spliced ev⟩ ::
             (solve_loop jid (difficulty_to_target_u32 ev.difficulty) (spliced ev) ev
               rest).jobCalls,
           (solve_loop jid (difficulty_to_target_u32 ev.difficulty) (spliced ev) ev
             rest).writeStates + 1,
           (solve_loop jid (difficulty_to_target_u32 ev.difficulty) (spliced ev) ev
             rest).reads + 1,
           (solve_loop jid (difficulty_to_target_u32 ev.difficulty) (spliced ev) ev
             rest).outcome⟩ := rfl
    refine ⟨?_, ?_, ?_, ?_⟩
    · simp only []
      rw [i1, j1, htail1]
    · simp only []
      rw [i2, j2, htail1]
    · simp only []
      rw [i3, j3, htail1]
      exact rfl
    · simp only [List.length_cons]
      rw [i4, j4, htail1]
      simp only [List.length_cons]
      omega
  · intro hb
    subst hb
    have htail1f : solve_loop jid (difficulty_to_target_u32 ev.difficulty) (spliced ev) ev
        ((⟨false, Except.error e, false⟩ : PollStep) :: rest)
        = ⟨[], [⟨jid, difficulty_to_target_u32 ev.difficulty, spliced ev⟩], 1, 1,
            SolveOutcome.fatal⟩ := rfl
    refine ⟨?_, ?_, ?_⟩
    · simp only []
      rw [i1, htail1f]
    · simp only []
      rw [i2, htail1f]
    · simp only [List.length_cons]
      rw [i4, htail1f]
      simp only [List.length_singleton]

/-- Witness for C7: a 39-byte payload with no extra field and an immediate
`SolvedJob` response with nonce 66 and hash `[171]`. -/
theorem solve_solvedjob_emits_seal_witness :
    39 ≤ (List.replicate 39 7 : List Nat).length ∧
      (∀ s ∈ ([] : List PollStep), continuing s) ∧
      ∃ out,
        solve ⟨1, List.replicate 39 7, none⟩ 5 true
            [⟨false, Except.ok (DeriveResponse.SolvedJob ⟨2, 66, [171]⟩), false⟩]
          = Except.ok out ∧
        out.sends = [{ minting_blob := List.replicate 39 7, nonce := 66,
                       extra := none, hash_result := hexEncode [171] }] ∧
        out.reads = 1 ∧
        out.outcome = SolveOutcome.solved :=
  ⟨by simp, by simp,
    solve_solvedjob_emits_seal ⟨1, List.replicate 39 7, none⟩ 5 [] [] ⟨2, 66, [171]⟩
      false (by simp) (by simp)⟩

/-- Witness for C8: a failing first read with a succeeding re-submission. -/
theorem solve_read_error_resubmits_witness :
    39 ≤ (List.replicate 39 7 : List Nat).length ∧
      (∀ s ∈ ([] : List PollStep), continuing s) ∧
      ∃ out cont,
        solve ⟨1, List.replicate 39 7, none⟩ 5 true [⟨false, Except.error (), true⟩]
            = Except.ok out ∧
        solve ⟨1, List.replicate 39 7, none⟩ 5 true [] = Except.ok cont ∧
        (∀ c ∈ out.jobCalls,
          c = ⟨5, difficulty_to_target_u32 1, spliced ⟨1, List.replicate 39 7, none⟩⟩) ∧
        (true = true → out.sends = cont.sends ∧ out.outcome = cont.outcome ∧
          out.reads = cont.reads + 1 ∧
          out.jobCalls.length = cont.jobCalls.length + 1) ∧
        (true = false → out.sends = [] ∧ out.outcome = SolveOutcome.fatal ∧
          out.jobCalls.length = errCount [] + 2) :=
  ⟨by simp, by simp,
    solve_read_error_resubmits ⟨1, List.replicate 39 7, none⟩ 5 [] [] () true
      (by simp) (by simp)⟩

/-- Witness for C9: the stop signal is set at the very first iteration. -/
theorem solve_stop_cancels_witness :
    39 ≤ (List.replicate 39 7 : List Nat).length ∧
      (∀ s ∈ ([] : List PollStep), continuing s) ∧
      (⟨true, Except.error (), false⟩ : PollStep).stop = true ∧
      ∃ out,
        solve ⟨1, List.replicate 39 7, none⟩ 5 true [⟨true, Except.error (), false⟩]
          = Except.ok out ∧
        out.sends = [] ∧
        out.reads = 0 ∧
        out.outcome = SolveOutcome.cancelled :=
  ⟨by simp, by simp, rfl,
    solve_stop_cancels ⟨1, List.replicate 39 7, none⟩ 5 [] []
      ⟨true, Except.error (), false⟩ (by simp) (by simp) rfl⟩
